import Mathlib

/-!
Shallow embedding of the orphaned-image cleanup command of
django_visual_editor (management/commands/cleanup_editor_images.py),
together with a model of the image store it mutates.  Pure data flows
are translated to Lean functions; the per-field try/except and the
deletion loop become explicit control flow; injected storage faults
model exceptions raised by file deletion.
-/

namespace VisualEditorCleanup

/-- The literal opening of every image marker: the fixed text of the
regular expression pattern used by the command, up to the digit group. -/
def markerLit : List Char := "data-image-id=\"".data

/-- Numeric value of a digit string, as computed by int() applied to the
matched digit group. -/
def digitsToNat (ds : List Char) : Nat :=
  ds.foldl (fun n c => 10 * n + (c.toNat - 48)) 0

/-- Boolean test that the first list is a prefix of the second. -/
def leadsWith : List Char → List Char → Bool
  | [], _ => true
  | _ :: _, [] => false
  | p :: ps, c :: cs => p == c && leadsWith ps cs

/-- Fuel-indexed model of re.findall over the marker pattern
data-image-id="(digits)": at each position try to match the literal, a
nonempty maximal digit run and a closing quote; on success record the id
and resume scanning after the whole match (findall matches do not
overlap), otherwise advance one character. -/
def findMarkersF : Nat → List Char → List Nat
  | 0, _ => []
  | _ + 1, [] => []
  | fuel + 1, c :: cs =>
    if leadsWith markerLit (c :: cs) then
      let rest := (c :: cs).drop markerLit.length
      let ds := rest.takeWhile Char.isDigit
      let rest2 := rest.dropWhile Char.isDigit
      if ds ≠ [] ∧ rest2.head? = some '"' then
        digitsToNat ds :: findMarkersF fuel rest2.tail
      else findMarkersF fuel cs
    else findMarkersF fuel cs

/-- All image ids matched in a character list; fuel equal to the length
is always sufficient since every step consumes at least one character. -/
def findMarkers (s : List Char) : List Nat :=
  findMarkersF s.length s

/-- Image ids extracted from one attribute value, in match order
(re.findall on the marker pattern followed by int on each group). -/
def extractIds (content : String) : List Nat :=
  findMarkers content.data

example : extractIds "<p data-image-id=\"42\">x</p>" = [42] := by decide

example : extractIds "data-image-id=\"7\" data-image-id=\"007\"" = [7, 7] := by
  decide

example : extractIds "data-image-id=\"\" data-image-id=\"5x\"" = [] := by decide

/-- Outcome of reading one attribute on one instance: either the read
raises an exception carrying a message, or it yields a string value
(a missing attribute yields the getattr default, the empty string). -/
inductive ReadResult where
  | err (msg : String)
  | ok (val : String)
deriving DecidableEq, Repr

/-- Whether a read raised. -/
def ReadResult.isErr : ReadResult → Bool
  | .err _ => true
  | .ok _ => false

/-- One instance of a content-bearing entity type: a record of named
attribute values, each read either succeeding or raising. -/
structure ContentInstance where
  fields : List (String × ReadResult)
deriving DecidableEq, Repr

/-- getattr(instance, name, ""): a name absent from the instance yields
the default empty string; a present name yields its read outcome. -/
def getAttr (inst : ContentInstance) (fname : String) : ReadResult :=
  match inst.fields.lookup fname with
  | none => .ok ""
  | some r => r

/-- A declared attribute of an entity type, with the text/non-text
classification (isinstance of TextField or CharField). -/
structure FieldDecl where
  name : String
  isText : Bool
deriving DecidableEq, Repr

/-- A registered entity type: its name, declared attributes, and the
enumeration of its instances. -/
structure EntityModel where
  name : String
  fieldDecls : List FieldDecl
  instances : List ContentInstance
deriving DecidableEq, Repr

/-- The inner instance loop for one (entity type, attribute) pair, run
under a single try/except: an empty value is skipped, a successful read
contributes its extracted ids, and a raising read stops the loop for
this pair, discarding the contributions of the raising instance and of
every later instance but keeping the earlier ones, and records one
warning naming the type and the attribute. -/
def scanInstances (mn fn : String) : List ContentInstance → List Nat × List String
  | [] => ([], [])
  | inst :: rest =>
    match getAttr inst fn with
    | .err msg => ([], ["Error checking " ++ mn ++ "." ++ fn ++ ": " ++ msg])
    | .ok content =>
      if content = "" then scanInstances mn fn rest
      else
        let r := scanInstances mn fn rest
        (extractIds content ++ r.1, r.2)

/-- Scan of the text attributes of one entity type, one instance loop per
attribute, accumulating ids and warnings in order. -/
def scanFields (mn : String) (insts : List ContentInstance) :
    List FieldDecl → List Nat × List String
  | [] => ([], [])
  | fd :: rest =>
    let r := scanInstances mn fd.name insts
    let r2 := scanFields mn insts rest
    (r.1 ++ r2.1, r.2 ++ r2.2)

/-- Scan of one entity type: only attributes declared as text are
scanned; a type with none contributes nothing. -/
def scanModel (m : EntityModel) : List Nat × List String :=
  scanFields m.name m.instances (m.fieldDecls.filter (·.isText))

/-- Scan of every registered entity type in catalog order. -/
def scanCatalog : List EntityModel → List Nat × List String
  | [] => ([], [])
  | m :: rest =>
    let r := scanModel m
    let r2 := scanCatalog rest
    (r.1 ++ r2.1, r.2 ++ r2.2)

/-- The set of used image ids: every id matched anywhere, accumulated
into a set, so duplicates collapse and order is irrelevant. -/
def usedIds (catalog : List EntityModel) : Finset Nat :=
  (scanCatalog catalog).1.toFinset

/-- An uploaded image record: database id, storage name of its file, and
upload timestamp.  Modelled from the spec: the EditorImage model itself
is not part of the scanned sources; per the spec its rows carry an id, a
storage locator and an upload time, and enumeration is ordered by
uploaded_at descending. -/
structure EditorImage where
  id : Nat
  name : String
  uploadedAt : Nat
deriving DecidableEq, Repr

/-- The image store: the database rows in enumeration order (uploaded_at
descending) and the set of stored files by name. -/
structure ImageStore where
  records : List EditorImage
  files : List String
deriving DecidableEq, Repr

/-- The destructive loop over the unused images.  Deleting one image
first deletes its file from storage, then its database row; neither call
is wrapped in a try/except, so a storage fault (name listed in
failFiles) raises and aborts the whole loop: the failing image keeps its
file and its row, later images are not touched, and the flag records
that the run ended in an exception.  Deleting a file or row that is
already gone is a no-op (default storage ignores a missing file; a
delete by id of an absent row matches nothing). -/
def deleteLoop (failFiles : List String) :
    ImageStore → List EditorImage → ImageStore × List Nat × Bool
  | store, [] => (store, [], false)
  | store, img :: rest =>
    if img.name ∈ failFiles then (store, [], true)
    else
      let store2 : ImageStore :=
        { records := store.records.filter (fun r => decide (r.id ≠ img.id))
          files := store.files.erase img.name }
      let r := deleteLoop failFiles store2 rest
      (r.1, img.id :: r.2.1, r.2.2)

/-- The report assembled from the command's output lines. -/
structure ScanReport where
  totalImages : Nat
  usedCount : Nat
  unusedCount : Nat
  deletedIds : List Nat
  warnings : List String
  aborted : Bool
deriving DecidableEq, Repr

/-- The decision-and-deletion phase of handle, parameterised by the set
of used ids and the warnings already collected: the unused images are
the stored records whose id is not in the used set; if there are none
the command returns early; under dry run nothing is mutated; otherwise
the deletion loop runs. -/
def scanCore (used : Finset Nat) (ws : List String) (store : ImageStore)
    (dryRun : Bool) (failFiles : List String) : ImageStore × ScanReport :=
  let unused := store.records.filter (fun r => decide (r.id ∉ used))
  if unused.isEmpty then
    (store, ⟨store.records.length, used.card, 0, [], ws, false⟩)
  else if dryRun then
    (store, ⟨store.records.length, used.card, unused.length, [], ws, false⟩)
  else
    let r := deleteLoop failFiles store unused
    (r.1, ⟨store.records.length, used.card, unused.length, r.2.1, ws, r.2.2⟩)

/-- The whole handle: scan every registered entity type for markers,
then decide and (unless dry run) delete. -/
def scan (catalog : List EntityModel) (store : ImageStore)
    (dryRun : Bool) (failFiles : List String) : ImageStore × ScanReport :=
  scanCore (usedIds catalog) (scanCatalog catalog).2 store dryRun failFiles

example :
    (scan
      [⟨"Post", [⟨"body", true⟩], [⟨[("body", .ok "a data-image-id=\"2\" b")]⟩]⟩]
      ⟨[⟨3, "c.jpg", 3⟩, ⟨2, "b.jpg", 2⟩, ⟨1, "a.jpg", 1⟩], ["a.jpg", "b.jpg", "c.jpg"]⟩
      false []).1.records = [⟨2, "b.jpg", 2⟩] := by decide

/-! Helper lemmas shared by the claim theorems. -/

lemma scanInstances_cons_err (mn fn : String) (p : ContentInstance)
    (l : List ContentInstance) (msg : String) (hg : getAttr p fn = .err msg) :
    scanInstances mn fn (p :: l)
      = ([], ["Error checking " ++ mn ++ "." ++ fn ++ ": " ++ msg]) := by
  simp [scanInstances, hg]

lemma scanInstances_cons_empty (mn fn : String) (p : ContentInstance)
    (l : List ContentInstance) (hg : getAttr p fn = .ok "") :
    scanInstances mn fn (p :: l) = scanInstances mn fn l := by
  simp [scanInstances, hg]

lemma scanInstances_cons_ok (mn fn : String) (p : ContentInstance)
    (l : List ContentInstance) (c : String) (hg : getAttr p fn = .ok c)
    (hc : c ≠ "") :
    scanInstances mn fn (p :: l)
      = (extractIds c ++ (scanInstances mn fn l).1, (scanInstances mn fn l).2) := by
  simp [scanInstances, hg, hc]

lemma scanCore_warnings (used : Finset Nat) (ws : List String) (store : ImageStore)
    (dry : Bool) (ff : List String) :
    (scanCore used ws store dry ff).2.warnings = ws := by
  unfold scanCore
  dsimp only
  by_cases hE : (store.records.filter (fun r => decide (r.id ∉ used))).isEmpty
  · rw [if_pos hE]
  · rw [if_neg hE]
    cases dry <;> rfl

lemma deleteLoop_nofail (ff : List String) :
    ∀ (imgs : List EditorImage) (store : ImageStore),
    (∀ i ∈ imgs, i.name ∉ ff) →
    (deleteLoop ff store imgs).1.records
        = store.records.filter (fun r => decide (r.id ∉ imgs.map (·.id)))
      ∧ (deleteLoop ff store imgs).2.1 = imgs.map (·.id)
      ∧ (deleteLoop ff store imgs).2.2 = false := by
  intro imgs
  induction imgs with
  | nil => intro store _; simp [deleteLoop]
  | cons img rest ih =>
    intro store h
    have himg : img.name ∉ ff := h img (List.mem_cons_self ..)
    have hrest : ∀ i ∈ rest, i.name ∉ ff :=
      fun i hi => h i (List.mem_cons_of_mem _ hi)
    obtain ⟨h1, h2, h3⟩ := ih
      ⟨store.records.filter (fun r => decide (r.id ≠ img.id)),
       store.files.erase img.name⟩ hrest
    refine ⟨?_, ?_, ?_⟩
    · simp only [deleteLoop, if_neg himg]
      rw [h1]
      simp only [List.filter_filter]
      refine List.filter_congr (fun r _ => ?_)
      by_cases hid : r.id = img.id <;> simp [hid, List.mem_cons]
    · simp only [deleteLoop, if_neg himg, List.map_cons]
      rw [h2]
    · simp only [deleteLoop, if_neg himg]
      exact h3

lemma scan_false_nofail (catalog : List EntityModel) (store : ImageStore) :
    ((scan catalog store false []).1).records
        = store.records.filter (fun r => decide (r.id ∈ usedIds catalog))
      ∧ (scan catalog store false []).2.deletedIds
        = (store.records.filter (fun r => decide (r.id ∉ usedIds catalog))).map (·.id)
      ∧ (scan catalog store false []).2.aborted = false := by
  unfold scan scanCore
  set used := usedIds catalog with hused
  set unused := store.records.filter (fun r => decide (r.id ∉ used)) with hunused
  by_cases hE : unused.isEmpty
  · have hnil : unused = [] := List.isEmpty_iff.mp hE
    have hall : ∀ r ∈ store.records, r.id ∈ used := by
      intro r hr
      by_contra hcon
      have : r ∈ unused := by
        rw [hunused]
        exact List.mem_filter.mpr ⟨hr, by simpa using hcon⟩
      simp [hnil] at this
    have hf : store.records.filter (fun r => decide (r.id ∈ used)) = store.records :=
      List.filter_eq_self.mpr (fun r hr => by simpa using hall r hr)
    simp only [if_pos hE, hf, ← hunused, hnil, List.map_nil]
    exact ⟨rfl, rfl, rfl⟩
  · obtain ⟨h1, h2, h3⟩ :=
      deleteLoop_nofail [] unused store (by intro i _; simp)
    simp only [if_neg hE, Bool.false_eq_true, if_false]
    refine ⟨?_, ?_, ?_⟩
    · rw [h1]
      refine List.filter_congr (fun r hr => ?_)
      have hiff : r.id ∉ unused.map (·.id) ↔ r.id ∈ used := by
        constructor
        · intro hno
          by_contra hcon
          exact hno (List.mem_map.mpr
            ⟨r, by rw [hunused]; exact List.mem_filter.mpr ⟨hr, by simpa using hcon⟩, rfl⟩)
        · intro hyes hmem
          obtain ⟨i, hi, hie⟩ := List.mem_map.mp hmem
          rw [hunused] at hi
          have : decide (i.id ∉ used) = true := (List.mem_filter.mp hi).2
          rw [hie] at this
          simp at this
          exact this hyes
      by_cases hc : r.id ∈ used
      · simp [hc, hiff.mpr hc]
      · simp only [decide_eq_true_eq] at *
        have : r.id ∈ unused.map (·.id) := by
          by_contra hno
          exact hc (hiff.mp hno)
        simp [hc, this]
    · rw [h2]
    · exact h3

lemma erase_map_name :
    ∀ (recs : List EditorImage) (img : EditorImage),
    img ∈ recs → (recs.map (·.id)).Nodup → (recs.map (·.name)).Nodup →
    (recs.map (·.name)).erase img.name
      = (recs.filter (fun r => decide (r.id ≠ img.id))).map (·.name) := by
  intro recs
  induction recs with
  | nil => intro img hmem _ _; simp at hmem
  | cons r rs ih =>
    intro img hmem hid hname
    rw [List.map_cons] at hid hname
    have hid1 : r.id ∉ rs.map (·.id) := (List.nodup_cons.mp hid).1
    have hid' : (rs.map (·.id)).Nodup := (List.nodup_cons.mp hid).2
    have hname1 : r.name ∉ rs.map (·.name) := (List.nodup_cons.mp hname).1
    have hname' : (rs.map (·.name)).Nodup := (List.nodup_cons.mp hname).2
    rcases List.mem_cons.mp hmem with heq | hmem'
    · subst heq
      have hall : rs.filter (fun x => decide (x.id ≠ img.id)) = rs := by
        refine List.filter_eq_self.mpr (fun x hx => ?_)
        simp only [decide_eq_true_eq]
        intro hxe
        exact hid1 (List.mem_map.mpr ⟨x, hx, hxe⟩)
      have hdec : decide (img.id ≠ img.id) = false := by simp
      rw [List.map_cons, List.erase_cons_head, List.filter_cons, hdec]
      simp only [Bool.false_eq_true, if_false]
      rw [hall]
    · have hne : r.name ≠ img.name := by
        intro he
        exact hname1 (he ▸ List.mem_map.mpr ⟨img, hmem', rfl⟩)
      have hneid : r.id ≠ img.id := by
        intro he
        exact hid1 (he ▸ List.mem_map.mpr ⟨img, hmem', rfl⟩)
      have hdec : decide (r.id ≠ img.id) = true := by simpa using hneid
      rw [List.map_cons, List.erase_cons_tail (by simpa using hne),
        List.filter_cons, hdec]
      simp only [if_true]
      rw [List.map_cons, ih img hmem' hid' hname']

lemma deleteLoop_files_inv :
    ∀ (imgs : List EditorImage) (store : ImageStore),
    (∀ i ∈ imgs, i ∈ store.records) →
    (store.records.map (·.id)).Nodup →
    (store.records.map (·.name)).Nodup →
    imgs.Nodup →
    store.files = store.records.map (·.name) →
    (deleteLoop [] store imgs).1.files
      = ((deleteLoop [] store imgs).1.records).map (·.name) := by
  intro imgs
  induction imgs with
  | nil => intro store _ _ _ _ hfiles; simpa [deleteLoop] using hfiles
  | cons img rest ih =>
    intro store hmem hid hname hnd hfiles
    have himg : img ∈ store.records := hmem img (List.mem_cons_self ..)
    have hninr : img ∉ rest := (List.nodup_cons.mp hnd).1
    have hnd' : rest.Nodup := (List.nodup_cons.mp hnd).2
    set store2 : ImageStore :=
      ⟨store.records.filter (fun r => decide (r.id ≠ img.id)),
       store.files.erase img.name⟩ with hs2
    have hsub : List.Sublist store2.records store.records := by
      rw [hs2]; exact List.filter_sublist _
    have hid2 : (store2.records.map (·.id)).Nodup :=
      List.Nodup.sublist (hsub.map _) hid
    have hname2 : (store2.records.map (·.name)).Nodup :=
      List.Nodup.sublist (hsub.map _) hname
    have hmem2 : ∀ i ∈ rest, i ∈ store2.records := by
      intro i hi
      have hi1 : i ∈ store.records := hmem i (List.mem_cons_of_mem _ hi)
      have hne : i.id ≠ img.id := by
        intro he
        exact hninr (by
          have : i = img := List.inj_on_of_nodup_map hid hi1 himg he
          exact this ▸ hi)
      rw [hs2]
      exact List.mem_filter.mpr ⟨hi1, by simpa using hne⟩
    have hfiles2 : store2.files = store2.records.map (·.name) := by
      rw [hs2]
      simp only
      rw [hfiles]
      exact erase_map_name store.records img himg hid hname
    have hrec := ih store2 hmem2 hid2 hname2 hnd' hfiles2
    rw [hs2] at hrec
    simpa [deleteLoop] using hrec

lemma scan_false_files (catalog : List EntityModel) (store : ImageStore)
    (hid : (store.records.map (·.id)).Nodup)
    (hname : (store.records.map (·.name)).Nodup)
    (hfiles : store.files = store.records.map (·.name)) :
    ((scan catalog store false []).1).files
      = ((scan catalog store false []).1).records.map (·.name) := by
  unfold scan scanCore
  dsimp only
  set used := usedIds catalog
  set unused := store.records.filter (fun r => decide (r.id ∉ used)) with hunused
  by_cases hE : unused.isEmpty
  · rw [if_pos hE]; exact hfiles
  · rw [if_neg hE]
    show (deleteLoop [] store unused).1.files
      = ((deleteLoop [] store unused).1.records).map (·.name)
    refine deleteLoop_files_inv unused store ?_ hid hname ?_ hfiles
    · intro i hi
      rw [hunused] at hi
      exact List.mem_of_mem_filter hi
    · rw [hunused]
      exact (hid.of_map).filter _

/-- C1: with dryRun=false and no storage faults, the scan deletes exactly
the stored images whose id is referenced by no scanned attribute, records
and files alike, and leaves every referenced image untouched: afterwards
the records are exactly the original records with a used id, the files
are exactly their files, and the reported deleted ids are exactly the
ids of the unreferenced records.  Hypotheses: ids and file names are
unique in the store and the file set matches the records, as the upload
endpoint guarantees. -/
theorem scan_deletes_exactly_unreferenced (catalog : List EntityModel) (store : ImageStore)
    (hid : (store.records.map (·.id)).Nodup)
    (hname : (store.records.map (·.name)).Nodup)
    (hfiles : store.files = store.records.map (·.name)) :
    ((scan catalog store false []).1).records
        = store.records.filter (fun r => decide (r.id ∈ usedIds catalog))
      ∧ ((scan catalog store false []).1).files
        = (store.records.filter (fun r => decide (r.id ∈ usedIds catalog))).map (·.name)
      ∧ (scan catalog store false []).2.deletedIds
        = (store.records.filter (fun r => decide (r.id ∉ usedIds catalog))).map (·.id)
      ∧ (scan catalog store false []).2.aborted = false := by
  obtain ⟨h1, h2, h3⟩ := scan_false_nofail catalog store
  refine ⟨h1, ?_, h2, h3⟩
  rw [scan_false_files catalog store hid hname hfiles, h1]

/-- Witness for C1 at a concrete store and catalog: images 1 and 2 are
stored, only image 2 is referenced, and the scan keeps exactly image 2's
record and file while reporting image 1 deleted. -/
theorem scan_deletes_exactly_unreferenced_witness :
    (([⟨2, "b.jpg", 2⟩, ⟨1, "a.jpg", 1⟩] : List EditorImage).map (·.id)).Nodup
      ∧ ((scan
            [⟨"Post", [⟨"body", true⟩], [⟨[("body", .ok "x data-image-id=\"2\" y")]⟩]⟩]
            ⟨[⟨2, "b.jpg", 2⟩, ⟨1, "a.jpg", 1⟩], ["b.jpg", "a.jpg"]⟩ false []).1).records
          = [⟨2, "b.jpg", 2⟩] := by
  constructor
  · decide
  · have h := scan_deletes_exactly_unreferenced
      [⟨"Post", [⟨"body", true⟩], [⟨[("body", .ok "x data-image-id=\"2\" y")]⟩]⟩]
      ⟨[⟨2, "b.jpg", 2⟩, ⟨1, "a.jpg", 1⟩], ["b.jpg", "a.jpg"]⟩
      (by decide) (by decide) (by decide)
    rw [h.1]
    decide

/-- C4: a dry-run scan never mutates the image store: whatever the
catalog, the store and the injected storage faults, the store returned
by scan with dryRun=true is the input store, records and files alike. -/
theorem dry_run_never_mutates (catalog : List EntityModel) (store : ImageStore)
    (ff : List String) :
    (scan catalog store true ff).1 = store := by
  unfold scan scanCore
  dsimp only
  by_cases hE : (store.records.filter (fun r => decide (r.id ∉ usedIds catalog))).isEmpty
  · rw [if_pos hE]
  · rw [if_neg hE]
    rfl

/-- C6: running the destructive scan twice in succession with the same
catalog and no storage faults deletes nothing on the second run: the
second run reports an empty deleted list and returns the store of the
first run unchanged. -/
theorem second_scan_deletes_nothing (catalog : List EntityModel) (store : ImageStore) :
    (scan catalog ((scan catalog store false []).1) false []).2.deletedIds = []
      ∧ (scan catalog ((scan catalog store false []).1) false []).1
          = (scan catalog store false []).1 := by
  obtain ⟨h1, -, -⟩ := scan_false_nofail catalog store
  set store1 := (scan catalog store false []).1 with hs1
  have hunused2 : store1.records.filter (fun r => decide (r.id ∉ usedIds catalog)) = [] := by
    rw [h1, List.filter_filter]
    refine List.filter_eq_nil_iff.mpr (fun a _ => ?_)
    by_cases hc : a.id ∈ usedIds catalog <;> simp [hc]
  unfold scan scanCore
  dsimp only
  rw [hunused2]
  exact ⟨rfl, rfl⟩

/-- C2 counterexample: one entity type with two instances of the same
attribute; reading the first raises, the second contains a marker for
image 5.  The claim says only the raising instance's contribution is
omitted and image 5 is still classified as used; the code's try/except
wraps the whole instance loop of the field, so the second instance is
never scanned, image 5 is classified unused and deleted. -/
theorem error_skips_rest_of_field_counterexample :
    usedIds
        [⟨"Post", [⟨"content", true⟩],
          [⟨[("content", .err "boom")]⟩,
           ⟨[("content", .ok "x data-image-id=\"5\" y")]⟩]⟩] = ∅
      ∧ (scan
          [⟨"Post", [⟨"content", true⟩],
            [⟨[("content", .err "boom")]⟩,
             ⟨[("content", .ok "x data-image-id=\"5\" y")]⟩]⟩]
          ⟨[⟨5, "e.jpg", 1⟩], ["e.jpg"]⟩ false []).1.records = []
      ∧ (scan
          [⟨"Post", [⟨"content", true⟩],
            [⟨[("content", .err "boom")]⟩,
             ⟨[("content", .ok "x data-image-id=\"5\" y")]⟩]⟩]
          ⟨[⟨5, "e.jpg", 1⟩], ["e.jpg"]⟩ false []).2.deletedIds = [5]
      ∧ (scan
          [⟨"Post", [⟨"content", true⟩],
            [⟨[("content", .err "boom")]⟩,
             ⟨[("content", .ok "x data-image-id=\"5\" y")]⟩]⟩]
          ⟨[⟨5, "e.jpg", 1⟩], ["e.jpg"]⟩ false []).2.warnings
        = ["Error checking Post.content: boom"] := by
  refine ⟨by decide, by decide, by decide, by decide⟩

/-- C2 amended: when reading one instance's attribute raises, a warning
naming the entity type and the attribute is recorded and the scan
continues with the remaining attributes and entity types, but the
instance loop of that one (type, attribute) pair stops there: ids
already extracted from earlier instances of the pair are kept, while the
contributions of the raising instance and of every later instance of the
same pair are omitted. -/
theorem error_truncates_field_scan (mn fn : String)
    (pre post : List ContentInstance) (instE : ContentInstance) (msg : String)
    (hpre : ∀ i ∈ pre, (getAttr i fn).isErr = false)
    (herr : getAttr instE fn = .err msg) :
    scanInstances mn fn (pre ++ instE :: post)
      = ((scanInstances mn fn pre).1,
         ["Error checking " ++ mn ++ "." ++ fn ++ ": " ++ msg]) := by
  induction pre with
  | nil => simp [scanInstances, herr]
  | cons p pre' ih =>
    have hp := hpre p (List.mem_cons_self ..)
    have hpre' : ∀ i ∈ pre', (getAttr i fn).isErr = false :=
      fun i hi => hpre i (List.mem_cons_of_mem _ hi)
    cases hg : getAttr p fn with
    | err m => rw [hg] at hp; simp [ReadResult.isErr] at hp
    | ok c =>
      by_cases hc : c = ""
      · subst hc
        rw [List.cons_append, scanInstances_cons_empty mn fn p _ hg,
          scanInstances_cons_empty mn fn p _ hg, ih hpre']
      · rw [List.cons_append, scanInstances_cons_ok mn fn p _ c hg hc,
          scanInstances_cons_ok mn fn p _ c hg hc, ih hpre']

/-- C2 amendment witness: one healthy instance referencing image 7
precedes a raising instance; the collected ids are exactly image 7 and
the single warning names the type and attribute. -/
theorem error_truncates_field_scan_witness :
    getAttr (⟨[("content", .err "boom")]⟩ : ContentInstance) "content"
        = .err "boom"
      ∧ scanInstances "Post" "content"
          [⟨[("content", .ok "data-image-id=\"7\"")]⟩,
           ⟨[("content", .err "boom")]⟩,
           ⟨[("content", .ok "data-image-id=\"9\"")]⟩]
        = ([7], ["Error checking Post.content: boom"]) := by
  constructor
  · decide
  · have h := error_truncates_field_scan "Post" "content"
      [⟨[("content", .ok "data-image-id=\"7\"")]⟩]
      [⟨[("content", .ok "data-image-id=\"9\"")]⟩]
      ⟨[("content", .err "boom")]⟩ "boom"
      (by decide) (by decide)
    rw [List.singleton_append] at h
    rw [h]
    decide

/-- C3 counterexample: images 1 and 2 are stored, neither is referenced,
and deleting image 1's file fails.  The claim says image 1's record is
still deleted, a warning is recorded, and image 2 is still deleted; the
code wraps neither deletion call in a try/except, so the exception
aborts the batch: nothing is deleted, no warning is recorded, and the run
ends in the exception. -/
theorem file_failure_aborts_counterexample :
    (scan [] ⟨[⟨1, "a.jpg", 1⟩, ⟨2, "b.jpg", 2⟩], ["a.jpg", "b.jpg"]⟩
        false ["a.jpg"]).1
      = ⟨[⟨1, "a.jpg", 1⟩, ⟨2, "b.jpg", 2⟩], ["a.jpg", "b.jpg"]⟩
      ∧ (scan [] ⟨[⟨1, "a.jpg", 1⟩, ⟨2, "b.jpg", 2⟩], ["a.jpg", "b.jpg"]⟩
          false ["a.jpg"]).2.deletedIds = []
      ∧ (scan [] ⟨[⟨1, "a.jpg", 1⟩, ⟨2, "b.jpg", 2⟩], ["a.jpg", "b.jpg"]⟩
          false ["a.jpg"]).2.warnings = []
      ∧ (scan [] ⟨[⟨1, "a.jpg", 1⟩, ⟨2, "b.jpg", 2⟩], ["a.jpg", "b.jpg"]⟩
          false ["a.jpg"]).2.aborted = true := by
  refine ⟨by decide, by decide, by decide, by decide⟩

/-- C3 amended: a failure deleting one unused image's stored file raises
out of the loop and aborts the batch: the images before it in iteration
order are deleted, the failing image keeps both its file and its
database record, the remaining unused images are not deleted, the run is
marked aborted, and the report's warnings are exactly those collected
during extraction (deletion adds none). -/
theorem file_failure_aborts_batch (ff : List String) (store : ImageStore)
    (pre post : List EditorImage) (bad : EditorImage)
    (h1 : ∀ i ∈ pre, i.name ∉ ff) (h2 : bad.name ∈ ff) :
    deleteLoop ff store (pre ++ bad :: post)
        = ((deleteLoop ff store pre).1, (deleteLoop ff store pre).2.1, true)
      ∧ ∀ (used : Finset Nat) (ws : List String) (dry : Bool),
          (scanCore used ws store dry ff).2.warnings = ws := by
  refine ⟨?_, fun used ws dry => scanCore_warnings used ws store dry ff⟩
  induction pre generalizing store with
  | nil => simp [deleteLoop, h2]
  | cons p pre' ih =>
    have hp : p.name ∉ ff := h1 p (List.mem_cons_self ..)
    have h1' : ∀ i ∈ pre', i.name ∉ ff := fun i hi => h1 i (List.mem_cons_of_mem _ hi)
    have hstep := ih
      (⟨store.records.filter (fun r => decide (r.id ≠ p.id)),
        store.files.erase p.name⟩ : ImageStore) h1'
    simp only [List.cons_append, deleteLoop, if_neg hp, List.append_eq]
    rw [hstep]

/-- C3 amendment witness: with image 1 deletable and image 2's file
failing, the loop deletes image 1, then aborts on image 2. -/
theorem file_failure_aborts_batch_witness :
    ("b.jpg" ∈ ["b.jpg"])
      ∧ deleteLoop ["b.jpg"]
          ⟨[⟨1, "a.jpg", 1⟩, ⟨2, "b.jpg", 2⟩, ⟨3, "c.jpg", 3⟩],
           ["a.jpg", "b.jpg", "c.jpg"]⟩
          [⟨1, "a.jpg", 1⟩, ⟨2, "b.jpg", 2⟩, ⟨3, "c.jpg", 3⟩]
        = (⟨[⟨2, "b.jpg", 2⟩, ⟨3, "c.jpg", 3⟩], ["b.jpg", "c.jpg"]⟩, [1], true) := by
  constructor
  · decide
  · have h := (file_failure_aborts_batch ["b.jpg"]
      ⟨[⟨1, "a.jpg", 1⟩, ⟨2, "b.jpg", 2⟩, ⟨3, "c.jpg", 3⟩],
       ["a.jpg", "b.jpg", "c.jpg"]⟩
      [⟨1, "a.jpg", 1⟩] [⟨3, "c.jpg", 3⟩] ⟨2, "b.jpg", 2⟩
      (by decide) (by decide)).1
    rw [List.singleton_append] at h
    rw [h]
    decide

/-- C8: attempting to delete an image whose file and record are already
gone is a no-op that never raises: with its name absent from the stored
files, its id absent from the records, and no storage fault on it, the
deletion step leaves the store exactly as the loop over the remaining
images would, merely logging the id, and the run does not crash. -/
theorem delete_already_deleted_noop (ff : List String) (store : ImageStore)
    (img : EditorImage) (rest : List EditorImage)
    (h1 : img.name ∉ store.files)
    (h2 : ∀ r ∈ store.records, r.id ≠ img.id)
    (h3 : img.name ∉ ff) :
    deleteLoop ff store (img :: rest)
      = ((deleteLoop ff store rest).1,
         img.id :: (deleteLoop ff store rest).2.1,
         (deleteLoop ff store rest).2.2) := by
  have hrec : store.records.filter (fun r => decide (r.id ≠ img.id)) = store.records :=
    List.filter_eq_self.mpr (fun r hr => by simpa using h2 r hr)
  have hfil : store.files.erase img.name = store.files := List.erase_of_not_mem h1
  simp only [deleteLoop, if_neg h3, hrec, hfil]

/-- C8 witness: deleting image 9, already absent from records and files,
before image 1 yields the same store and abort flag as deleting image 1
alone. -/
theorem delete_already_deleted_noop_witness :
    ((9 : Nat) ∉ ([⟨1, "a.jpg", 1⟩] : List EditorImage).map (·.id))
      ∧ deleteLoop [] ⟨[⟨1, "a.jpg", 1⟩], ["a.jpg"]⟩
          [⟨9, "gone.jpg", 9⟩, ⟨1, "a.jpg", 1⟩]
        = (⟨[], []⟩, [9, 1], false) := by
  constructor
  · decide
  · have h := delete_already_deleted_noop [] ⟨[⟨1, "a.jpg", 1⟩], ["a.jpg"]⟩
      ⟨9, "gone.jpg", 9⟩ [⟨1, "a.jpg", 1⟩]
      (by decide) (by decide) (by decide)
    rw [h]
    decide

/-- C9: used ids that correspond to no stored image have no effect on the
outcome: enlarging the used set by ids absent from the store changes
neither the resulting store nor the deleted ids, the unused count, the
warnings, or the abort flag — the deleted set is always the stored
records whose ids are outside the used set. -/
theorem unreferenced_ids_ignored (used extra : Finset Nat) (ws : List String)
    (store : ImageStore) (dry : Bool) (ff : List String)
    (h : ∀ r ∈ store.records, r.id ∉ extra) :
    (scanCore (used ∪ extra) ws store dry ff).1 = (scanCore used ws store dry ff).1
      ∧ (scanCore (used ∪ extra) ws store dry ff).2.deletedIds
        = (scanCore used ws store dry ff).2.deletedIds
      ∧ (scanCore (used ∪ extra) ws store dry ff).2.unusedCount
        = (scanCore used ws store dry ff).2.unusedCount
      ∧ (scanCore (used ∪ extra) ws store dry ff).2.warnings
        = (scanCore used ws store dry ff).2.warnings
      ∧ (scanCore (used ∪ extra) ws store dry ff).2.aborted
        = (scanCore used ws store dry ff).2.aborted := by
  have hfil : store.records.filter (fun r => decide (r.id ∉ used ∪ extra))
      = store.records.filter (fun r => decide (r.id ∉ used)) := by
    refine List.filter_congr (fun r hr => ?_)
    have := h r hr
    simp [Finset.mem_union, this]
  unfold scanCore
  dsimp only
  rw [hfil]
  by_cases hE : (store.records.filter (fun r => decide (r.id ∉ used))).isEmpty
  · rw [if_pos hE, if_pos hE]
    exact ⟨rfl, rfl, rfl, rfl, rfl⟩
  · rw [if_neg hE, if_neg hE]
    cases dry
    · rw [if_neg Bool.false_ne_true, if_neg Bool.false_ne_true]
      exact ⟨rfl, rfl, rfl, rfl, rfl⟩
    · rw [if_pos rfl, if_pos rfl]
      exact ⟨rfl, rfl, rfl, rfl, rfl⟩

/-- C9 witness: adding the unreferenced id 99 to the used set leaves the
resulting store unchanged at a concrete store. -/
theorem unreferenced_ids_ignored_witness :
    ((99 : Nat) ∉ ([⟨1, "a.jpg", 1⟩] : List EditorImage).map (·.id))
      ∧ (scanCore ({1} ∪ {99}) [] ⟨[⟨1, "a.jpg", 1⟩], ["a.jpg"]⟩ false []).1
        = (scanCore {1} [] ⟨[⟨1, "a.jpg", 1⟩], ["a.jpg"]⟩ false []).1 := by
  constructor
  · decide
  · exact (unreferenced_ids_ignored {1} {99} [] ⟨[⟨1, "a.jpg", 1⟩], ["a.jpg"]⟩
      false [] (by decide)).1

/-! Lemmas for marker extraction: a well-formed marker embedded anywhere
in a character list is always found by the findall model. -/

lemma markerLit_length : markerLit.length = 15 := by decide

lemma markerLit_eq_cons : markerLit = 'd' :: "ata-image-id=\"".data := by decide

lemma markerLit_no_border :
    ∀ k, k < 15 → 0 < k → markerLit ≠ markerLit.take k ++ markerLit.take (15 - k) := by
  decide

lemma leadsWith_append (p t : List Char) : leadsWith p (p ++ t) = true := by
  induction p with
  | nil => rfl
  | cons c cs ih => simp [leadsWith, ih]

lemma leadsWith_take :
    ∀ (p s : List Char), leadsWith p s = true → s.take p.length = p := by
  intro p
  induction p with
  | nil => intro s _; rfl
  | cons c cs ih =>
    intro s h
    cases s with
    | nil => simp [leadsWith] at h
    | cons a as =>
      simp only [leadsWith, Bool.and_eq_true, beq_iff_eq] at h
      rw [List.length_cons, List.take_succ_cons, ih as h.2, h.1]

lemma takeWhile_append_stop (p : Char → Bool) (y : Char) (hy : p y = false) :
    ∀ (a b : List Char),
    (a ++ y :: b).takeWhile p = a.takeWhile p
      ∧ (a ++ y :: b).dropWhile p = a.dropWhile p ++ y :: b := by
  intro a
  induction a with
  | nil => intro b; simp [List.takeWhile_cons, List.dropWhile_cons, hy]
  | cons c a' ih =>
    intro b
    cases hpc : p c <;>
      simp [List.takeWhile_cons, List.dropWhile_cons, hpc, ih b]

lemma takeWhile_all_stop (p : Char → Bool) (a : List Char) (y : Char)
    (b : List Char) (ha : ∀ c ∈ a, p c = true) (hy : p y = false) :
    (a ++ y :: b).takeWhile p = a ∧ (a ++ y :: b).dropWhile p = y :: b := by
  obtain ⟨h1, h2⟩ := takeWhile_append_stop p y hy a b
  constructor
  · rw [h1]
    exact List.takeWhile_eq_self_iff.mpr (fun c hc => ha c hc)
  · rw [h2, List.dropWhile_eq_nil_iff.mpr (fun c hc => ha c hc), List.nil_append]

lemma findMarkersF_succ_pos (fuel : Nat) (s : List Char) (hs : s ≠ [])
    (hl : leadsWith markerLit s = true) :
    findMarkersF (fuel + 1) s =
      (if ((s.drop markerLit.length).takeWhile Char.isDigit ≠ []
            ∧ ((s.drop markerLit.length).dropWhile Char.isDigit).head? = some '"') then
        digitsToNat ((s.drop markerLit.length).takeWhile Char.isDigit)
          :: findMarkersF fuel ((s.drop markerLit.length).dropWhile Char.isDigit).tail
      else findMarkersF fuel s.tail) := by
  cases s with
  | nil => exact absurd rfl hs
  | cons c cs =>
    show (if leadsWith markerLit (c :: cs) then _ else _) = _
    rw [if_pos hl]
    rfl

lemma findMarkersF_succ_neg (fuel : Nat) (s : List Char) (hs : s ≠ [])
    (hl : leadsWith markerLit s = false) :
    findMarkersF (fuel + 1) s = findMarkersF fuel s.tail := by
  cases s with
  | nil => exact absurd rfl hs
  | cons c cs =>
    show (if leadsWith markerLit (c :: cs) then _ else _) = _
    rw [hl]
    simp

lemma marker_found :
    ∀ (fuel : Nat) (u d v : List Char),
    (u ++ markerLit ++ d ++ '"' :: v).length ≤ fuel →
    d ≠ [] → (∀ c ∈ d, c.isDigit = true) →
    digitsToNat d ∈ findMarkersF fuel (u ++ markerLit ++ d ++ '"' :: v) := by
  intro fuel
  induction fuel with
  | zero =>
    intro u d v hlen _ _
    exfalso
    simp only [List.length_append, markerLit_length, List.length_cons,
      Nat.le_zero] at hlen
    omega
  | succ fuel ih =>
    intro u d v hlen hd hdig
    have hquote : Char.isDigit '"' = false := by decide
    have hdchar : Char.isDigit 'd' = false := by decide
    cases u with
    | nil =>
      rw [List.nil_append]
      have hs : markerLit ++ d ++ '"' :: v ≠ [] := by
        rw [markerLit_eq_cons]; simp
      have hl : leadsWith markerLit (markerLit ++ d ++ '"' :: v) = true := by
        rw [List.append_assoc]
        exact leadsWith_append markerLit _
      rw [findMarkersF_succ_pos fuel _ hs hl]
      have hrest : (markerLit ++ d ++ '"' :: v).drop markerLit.length
          = d ++ '"' :: v := by
        rw [List.append_assoc]
        exact List.drop_left markerLit _
      obtain ⟨htw, hdw⟩ := takeWhile_all_stop Char.isDigit d '"' v hdig hquote
      rw [hrest, htw, hdw]
      rw [if_pos ⟨hd, rfl⟩]
      exact List.mem_cons_self _ _
    | cons a u' =>
      have hs : (a :: u') ++ markerLit ++ d ++ '"' :: v ≠ [] := by simp
      have htail : ((a :: u') ++ markerLit ++ d ++ '"' :: v).tail
          = u' ++ markerLit ++ d ++ '"' :: v := by
        simp [List.cons_append]
      have hlen' : (u' ++ markerLit ++ d ++ '"' :: v).length ≤ fuel := by
        simp only [List.length_append, List.length_cons] at hlen ⊢
        omega
      cases hl : leadsWith markerLit ((a :: u') ++ markerLit ++ d ++ '"' :: v) with
      | false =>
        rw [findMarkersF_succ_neg fuel _ hs hl, htail]
        exact ih u' d v hlen' hd hdig
      | true =>
        have hassoc : (a :: u') ++ markerLit ++ d ++ '"' :: v
            = (a :: u') ++ (markerLit ++ (d ++ '"' :: v)) := by
          simp [List.append_assoc]
        have hk0 : ((a :: u') ++ markerLit ++ d ++ '"' :: v).take 15 = markerLit := by
          have := leadsWith_take markerLit _ hl
          rwa [markerLit_length] at this
        have hk : (a :: u').take 15
            ++ (markerLit ++ (d ++ '"' :: v)).take (15 - (a :: u').length)
            = markerLit := by
          rw [hassoc, List.take_append_eq_append_take] at hk0
          exact hk0
        by_cases h15 : 15 ≤ (a :: u').length
        · -- the matched literal lies entirely inside u
          have hu15 : (a :: u').take 15 = markerLit := by
            rw [Nat.sub_eq_zero_of_le h15, List.take_zero, List.append_nil] at hk
            exact hk
          have hu : a :: u' = markerLit ++ (a :: u').drop 15 := by
            conv_lhs => rw [← List.take_append_drop 15 (a :: u'), hu15]
          set u₂ := (a :: u').drop 15 with hu2
          have hsplit : (a :: u') ++ markerLit ++ d ++ '"' :: v
              = markerLit ++ (u₂ ++ (markerLit ++ d ++ '"' :: v)) := by
            conv_lhs => rw [hassoc, hu]
            simp [List.append_assoc]
          have hrest : ((a :: u') ++ markerLit ++ d ++ '"' :: v).drop markerLit.length
              = u₂ ++ (markerLit ++ d ++ '"' :: v) := by
            rw [hsplit]
            exact List.drop_left markerLit _
          rw [findMarkersF_succ_pos fuel _ hs hl, hrest]
          have hdecomp : u₂ ++ (markerLit ++ d ++ '"' :: v)
              = u₂ ++ 'd' :: ("ata-image-id=\"".data ++ d ++ '"' :: v) := by
            rw [markerLit_eq_cons]
            simp [List.cons_append, List.append_assoc]
          obtain ⟨htw, hdw⟩ := takeWhile_append_stop Char.isDigit 'd' hdchar u₂
            ("ata-image-id=\"".data ++ d ++ '"' :: v)
          by_cases hcond :
              ((u₂ ++ (markerLit ++ d ++ '"' :: v)).takeWhile Char.isDigit ≠ []
                ∧ ((u₂ ++ (markerLit ++ d ++ '"' :: v)).dropWhile Char.isDigit).head?
                    = some '"')
          · rw [if_pos hcond]
            obtain ⟨-, hhead⟩ := hcond
            rw [hdecomp, hdw] at hhead
            cases hdw2 : u₂.dropWhile Char.isDigit with
            | nil =>
              rw [hdw2, List.nil_append, List.head?_cons] at hhead
              exact absurd (Option.some.inj hhead) (by decide)
            | cons y w =>
              have htail2 : ((u₂ ++ (markerLit ++ d ++ '"' :: v)).dropWhile
                  Char.isDigit).tail = w ++ markerLit ++ d ++ '"' :: v := by
                rw [hdecomp, hdw, hdw2]
                simp [markerLit_eq_cons, List.cons_append, List.append_assoc]
              rw [htail2]
              have hwlen : (w ++ markerLit ++ d ++ '"' :: v).length ≤ fuel := by
                have h1 : (u₂.dropWhile Char.isDigit).length ≤ u₂.length :=
                  (List.dropWhile_sublist Char.isDigit).length_le
                rw [hdw2, List.length_cons] at h1
                have h2 : u₂.length = (a :: u').length - 15 := by
                  rw [hu2, List.length_drop]
                simp only [List.length_append, List.length_cons,
                  markerLit_length] at hlen ⊢
                simp only [List.length_cons] at h2
                omega
              exact List.mem_cons_of_mem _ (ih w d v hwlen hd hdig)
          · rw [if_neg hcond, htail]
            exact ih u' d v hlen' hd hdig
        · -- impossible: the literal would have to overlap its own start
          exfalso
          have hkle : (a :: u').length ≤ 15 := by omega
          have h1 : markerLit = a :: u'
              ++ markerLit.take (15 - (a :: u').length) := by
            rw [List.take_of_length_le hkle,
              List.take_append_eq_append_take,
              Nat.sub_eq_zero_of_le (by rw [markerLit_length]; omega :
                15 - (a :: u').length ≤ markerLit.length),
              List.take_zero, List.append_nil] at hk
            exact hk.symm
          have h2 : a :: u' = markerLit.take (a :: u').length := by
            conv_rhs => rw [h1]
            rw [List.take_append_eq_append_take, List.take_length,
              Nat.sub_self, List.take_zero, List.append_nil]
          refine markerLit_no_border (a :: u').length (by omega)
            (by simp) ?_
          conv_lhs => rw [h1]
          rw [← h2]

lemma mem_extractIds (u d v : String) (hd : d.data ≠ [])
    (hdig : ∀ c ∈ d.data, c.isDigit = true) :
    digitsToNat d.data ∈ extractIds (u ++ "data-image-id=\"" ++ d ++ "\"" ++ v) := by
  have hdata : (u ++ "data-image-id=\"" ++ d ++ "\"" ++ v).data
      = u.data ++ markerLit ++ d.data ++ '"' :: v.data := by
    rw [String.data_append, String.data_append, String.data_append,
      String.data_append,
      show ("\"" : String).data = ['"'] from by decide]
    simp [markerLit, List.append_assoc]
  unfold extractIds findMarkers
  rw [hdata]
  exact marker_found _ u.data d.data v.data (Nat.le_refl _) hd hdig

lemma mem_scanInstances (mn fn : String) :
    ∀ (pre : List ContentInstance) (inst : ContentInstance)
      (post : List ContentInstance) (content : String) (n : Nat),
    (∀ i ∈ pre, (getAttr i fn).isErr = false) →
    getAttr inst fn = .ok content → content ≠ "" →
    n ∈ extractIds content →
    n ∈ (scanInstances mn fn (pre ++ inst :: post)).1 := by
  intro pre
  induction pre with
  | nil =>
    intro inst post content n _ hget hne hn
    rw [List.nil_append, scanInstances_cons_ok mn fn inst post content hget hne]
    exact List.mem_append_left _ hn
  | cons p pre' ih =>
    intro inst post content n hpre hget hne hn
    have hp := hpre p (List.mem_cons_self ..)
    have hpre' : ∀ i ∈ pre', (getAttr i fn).isErr = false :=
      fun i hi => hpre i (List.mem_cons_of_mem _ hi)
    cases hg : getAttr p fn with
    | err m => rw [hg] at hp; simp [ReadResult.isErr] at hp
    | ok c =>
      by_cases hc : c = ""
      · subst hc
        rw [List.cons_append, scanInstances_cons_empty mn fn p _ hg]
        exact ih inst post content n hpre' hget hne hn
      · rw [List.cons_append, scanInstances_cons_ok mn fn p _ c hg hc]
        exact List.mem_append_right _ (ih inst post content n hpre' hget hne hn)

lemma mem_scanFields (mn : String) (insts : List ContentInstance) :
    ∀ (fds : List FieldDecl) (fd : FieldDecl), fd ∈ fds →
    ∀ n, n ∈ (scanInstances mn fd.name insts).1 →
    n ∈ (scanFields mn insts fds).1 := by
  intro fds
  induction fds with
  | nil => intro fd hfd; simp at hfd
  | cons g gs ih =>
    intro fd hfd n hn
    rcases List.mem_cons.mp hfd with heq | hmem
    · subst heq
      exact List.mem_append_left _ hn
    · exact List.mem_append_right _ (ih fd hmem n hn)

lemma mem_scanCatalog :
    ∀ (catalog : List EntityModel) (m : EntityModel), m ∈ catalog →
    ∀ n, n ∈ (scanModel m).1 → n ∈ (scanCatalog catalog).1 := by
  intro catalog
  induction catalog with
  | nil => intro m hm; simp at hm
  | cons m0 rest ih =>
    intro m hm n hn
    rcases List.mem_cons.mp hm with heq | hmem
    · subst heq
      exact List.mem_append_left _ hn
    · exact List.mem_append_right _ (ih m hmem n hn)

/-- C5: a marker of the exact form data-image-id="digits" occurring
anywhere inside any scanned long-text attribute of any registered entity
type marks the image whose id is the digits' value as used, whatever
entity type or attribute hosts it; the ids accumulate into a set
(usedIds is a Finset, so duplicates collapse and order is irrelevant).
The hosting instance must actually be scanned: every instance before it
in the same (type, attribute) loop reads without raising. -/
theorem marker_marks_image_used (catalog : List EntityModel) (m : EntityModel)
    (fd : FieldDecl) (pre post : List ContentInstance) (inst : ContentInstance)
    (u d v : String)
    (hm : m ∈ catalog) (hfd : fd ∈ m.fieldDecls) (htext : fd.isText = true)
    (hinst : m.instances = pre ++ inst :: post)
    (hpre : ∀ i ∈ pre, (getAttr i fd.name).isErr = false)
    (hget : getAttr inst fd.name = .ok (u ++ "data-image-id=\"" ++ d ++ "\"" ++ v))
    (hd : d.data ≠ []) (hdig : ∀ c ∈ d.data, c.isDigit = true) :
    digitsToNat d.data ∈ usedIds catalog := by
  set content := u ++ "data-image-id=\"" ++ d ++ "\"" ++ v with hcontent
  have hne : content ≠ "" := by
    intro h
    have hdata : content.data = [] := by rw [h]
    rw [hcontent] at hdata
    simp [String.data_append] at hdata
  have hmem1 : digitsToNat d.data ∈ extractIds content :=
    mem_extractIds u d v hd hdig
  have hmem2 : digitsToNat d.data ∈ (scanInstances m.name fd.name m.instances).1 := by
    rw [hinst]
    exact mem_scanInstances m.name fd.name pre inst post content _ hpre hget hne hmem1
  have hfd' : fd ∈ m.fieldDecls.filter (·.isText) :=
    List.mem_filter.mpr ⟨hfd, htext⟩
  have hmem3 : digitsToNat d.data ∈ (scanModel m).1 :=
    mem_scanFields m.name m.instances _ fd hfd' _ hmem2
  have hmem4 : digitsToNat d.data ∈ (scanCatalog catalog).1 :=
    mem_scanCatalog catalog m hm _ hmem3
  exact List.mem_toFinset.mpr hmem4

/-- C5 witness: a concrete catalog in which the single instance of the
Article type embeds data-image-id="42" in its body; id 42 is in the used
set. -/
theorem marker_marks_image_used_witness :
    getAttr (⟨[("body", .ok "<p data-image-id=\"42\">pic</p>")]⟩ : ContentInstance)
        "body" = .ok ("<p " ++ "data-image-id=\"" ++ "42" ++ "\"" ++ ">pic</p>")
      ∧ (42 : Nat) ∈ usedIds
          [⟨"Article", [⟨"body", true⟩],
            [⟨[("body", .ok "<p data-image-id=\"42\">pic</p>")]⟩]⟩] := by
  constructor
  · decide
  · exact marker_marks_image_used
      [⟨"Article", [⟨"body", true⟩],
        [⟨[("body", .ok "<p data-image-id=\"42\">pic</p>")]⟩]⟩]
      ⟨"Article", [⟨"body", true⟩],
        [⟨[("body", .ok "<p data-image-id=\"42\">pic</p>")]⟩]⟩
      ⟨"body", true⟩ [] []
      ⟨[("body", .ok "<p data-image-id=\"42\">pic</p>")]⟩
      "<p " "42" ">pic</p>"
      (List.mem_cons_self ..) (List.mem_cons_self ..) rfl rfl
      (by intro i hi; simp at hi) (by decide) (by decide) (by decide)

/-- C7: with exactly images 1 and 2 stored (enumerated by uploaded_at
descending, so image 2 first) and no content referencing either, the
destructive scan deletes both: the reported deleted ids are [2, 1] — the
documented stable enumeration order, with underlying set {1, 2} — and
the store holds zero records and zero files afterwards. -/
theorem scan_deletes_all_when_unreferenced :
    (scan [⟨"Comment", [⟨"text", true⟩], [⟨[("text", .ok "hello world")]⟩]⟩]
        ⟨[⟨2, "b.jpg", 20⟩, ⟨1, "a.jpg", 10⟩], ["a.jpg", "b.jpg"]⟩
        false []).2.deletedIds = [2, 1]
      ∧ ((scan [⟨"Comment", [⟨"text", true⟩], [⟨[("text", .ok "hello world")]⟩]⟩]
          ⟨[⟨2, "b.jpg", 20⟩, ⟨1, "a.jpg", 10⟩], ["a.jpg", "b.jpg"]⟩
          false []).2.deletedIds).toFinset = ({1, 2} : Finset Nat)
      ∧ (scan [⟨"Comment", [⟨"text", true⟩], [⟨[("text", .ok "hello world")]⟩]⟩]
          ⟨[⟨2, "b.jpg", 20⟩, ⟨1, "a.jpg", 10⟩], ["a.jpg", "b.jpg"]⟩
          false []).1.records = []
      ∧ (scan [⟨"Comment", [⟨"text", true⟩], [⟨[("text", .ok "hello world")]⟩]⟩]
          ⟨[⟨2, "b.jpg", 20⟩, ⟨1, "a.jpg", 10⟩], ["a.jpg", "b.jpg"]⟩
          false []).1.files = []
      ∧ (scan [⟨"Comment", [⟨"text", true⟩], [⟨[("text", .ok "hello world")]⟩]⟩]
          ⟨[⟨2, "b.jpg", 20⟩, ⟨1, "a.jpg", 10⟩], ["a.jpg", "b.jpg"]⟩
          false []).2.totalImages = 2
      ∧ List.Pairwise (fun a b => b.uploadedAt < a.uploadedAt)
          ([⟨2, "b.jpg", 20⟩, ⟨1, "a.jpg", 10⟩] : List EditorImage) := by
  refine ⟨by decide, by decide, by decide, by decide, by decide, by decide⟩

/-- C10: an instance whose scanned attribute is missing (getattr default)
or reads as the empty string is skipped silently: the scan of the
remaining instances is unchanged, so it contributes no ids and no
warning. -/
theorem empty_attribute_skipped (mn fn : String) (inst : ContentInstance)
    (rest : List ContentInstance)
    (h : inst.fields.lookup fn = none ∨ getAttr inst fn = .ok "") :
    scanInstances mn fn (inst :: rest) = scanInstances mn fn rest := by
  have hg : getAttr inst fn = .ok "" := by
    rcases h with h | h
    · simp [getAttr, h]
    · exact h
  simp [scanInstances, hg]

/-- C10 witness: a blank instance followed by one referencing image 3
contributes nothing: the scan equals the scan of the rest alone. -/
theorem empty_attribute_skipped_witness :
    getAttr (⟨[("body", .ok "")]⟩ : ContentInstance) "body" = .ok ""
      ∧ scanInstances "Post" "body"
          [⟨[("body", .ok "")]⟩, ⟨[("body", .ok "data-image-id=\"3\"")]⟩]
        = scanInstances "Post" "body" [⟨[("body", .ok "data-image-id=\"3\"")]⟩] := by
  constructor
  · decide
  · exact empty_attribute_skipped "Post" "body" ⟨[("body", .ok "")]⟩
      [⟨[("body", .ok "data-image-id=\"3\"")]⟩] (Or.inr (by decide))

end VisualEditorCleanup
